import Mathlib

/-!
Shallow embedding of `src/f5_tts_mlx/dit.py` (the DiT denoising backbone of
f5-tts-mlx) and proofs about its conditioning / modulation / composition
behaviour.

Modelling conventions:
- tensors are total functions over `Fin` index types with rational entries,
  so a tensor of shape `(b, n, d)` is `Fin b → Fin n → Fin d → ℚ`;
- the kernels imported from `f5_tts_mlx.modules` (Attention, FeedForward,
  TimestepEmbedding, ConvPositionEmbedding, ConvNeXtV2Block, RotaryEmbedding,
  precompute_freqs_cis, get_pos_embed_indices) are NOT in `src/`; the spec
  treats them as external collaborators that are pure shape-preserving maps,
  and they are modelled from the spec as abstract function-valued fields;
- the `mlx.nn` layers used directly by `dit.py` (Linear, Embedding,
  LayerNorm, SiLU) are modelled by their defining formulas; the two
  transcendental scalar kernels that occur in them (the sigmoid inside SiLU
  and the reciprocal square root inside LayerNorm) are taken as explicit
  function parameters `sigmoid` and `rsqrt`, so every structural claim is
  proved for all values of those kernels;
- `mx.pad` rejects negative padding sizes (MLX follows the numpy convention,
  raising an error on a negative pad width), so the token length
  reconciliation is Option-valued.
-/

namespace F5

/-- A rank-1 tensor of shape `(b,)`. -/
abbrev T1 (b : Nat) := Fin b → ℚ

/-- A rank-2 tensor of shape `(b, d)`. -/
abbrev T2 (b d : Nat) := Fin b → Fin d → ℚ

/-- A rank-3 tensor of shape `(b, n, d)`. -/
abbrev T3 (b n d : Nat) := Fin b → Fin n → Fin d → ℚ

/-- Model of `mlx.nn.LayerNorm(dim, affine = False, eps = 1e-6)` on one row:
subtract the mean, then scale by the reciprocal square root of the biased
variance plus eps. The irrational reciprocal square root is supplied as the
parameter `rsqrt`; the zero-centering and the absence of affine parameters
are concrete. -/
def layerNorm {d : Nat} (rsqrt : ℚ → ℚ) (v : Fin d → ℚ) : Fin d → ℚ :=
  let mean : ℚ := (∑ k, v k) / (d : ℚ)
  let variance : ℚ := (∑ k, (v k - mean) ^ 2) / (d : ℚ)
  fun k => (v k - mean) * rsqrt (variance + 1 / 1000000)

/-- Model of `mlx.nn.SiLU` applied elementwise to a `(b, d)` tensor:
`x * sigmoid(x)`, with the transcendental sigmoid supplied as a parameter. -/
def siluT2 {b d : Nat} (sigmoid : ℚ → ℚ) (e : T2 b d) : T2 b d :=
  fun i k => e i k * sigmoid (e i k)

/-- Model of `mlx.nn.Linear(inD, outD)` applied to the last axis of a
`(b, inD)` tensor: `y = x Wᵀ + bias`. -/
def linearT2 {b inD outD : Nat} (W : Fin outD → Fin inD → ℚ) (bias : Fin outD → ℚ)
    (x : T2 b inD) : T2 b outD :=
  fun i r => (∑ c, W r c * x i c) + bias r

/-- Model of `mlx.nn.Linear(inD, outD)` applied to the last axis of a
`(b, n, inD)` tensor. -/
def linearT3 {b n inD outD : Nat} (W : Fin outD → Fin inD → ℚ) (bias : Fin outD → ℚ)
    (x : T3 b n inD) : T3 b n outD :=
  fun i j r => (∑ c, W r c * x i j c) + bias r

/-- Model of `mlx.nn.Linear(inD, outD, bias = False)` applied to the last
axis of a `(b, n, inD)` tensor. -/
def linearNoBiasT3 {b n inD outD : Nat} (W : Fin outD → Fin inD → ℚ)
    (x : T3 b n inD) : T3 b n outD :=
  fun i j r => ∑ c, W r c * x i j c

/-- Part `p` of `mx.split(e, 6, axis = 1)` for a `(b, d * 6)` tensor:
columns `[p * d, (p + 1) * d)`. -/
def split6 {b d : Nat} (e : T2 b (d * 6)) (p : Fin 6) : T2 b d :=
  fun i k => e i ⟨p.val * d + k.val, by
    have hk := k.isLt
    have hp := p.isLt
    have h1 : p.val * d + k.val < (p.val + 1) * d := by
      rw [Nat.succ_mul]; omega
    have h2 : (p.val + 1) * d ≤ 6 * d := Nat.mul_le_mul_right d (Nat.succ_le_of_lt hp)
    rw [Nat.succ_mul] at h1 h2
    rw [Nat.mul_comm d 6]
    omega⟩

/-- Part `p` of `mx.split(e, 2, axis = 1)` for a `(b, d * 2)` tensor:
columns `[p * d, (p + 1) * d)`. -/
def split2 {b d : Nat} (e : T2 b (d * 2)) (p : Fin 2) : T2 b d :=
  fun i k => e i ⟨p.val * d + k.val, by
    have hk := k.isLt
    have hp := p.isLt
    have h1 : p.val * d + k.val < (p.val + 1) * d := by
      rw [Nat.succ_mul]; omega
    have h2 : (p.val + 1) * d ≤ 2 * d := Nat.mul_le_mul_right d (Nat.succ_le_of_lt hp)
    rw [Nat.succ_mul] at h1 h2
    rw [Nat.mul_comm d 2]
    omega⟩

/-- `mx.concatenate((x, y, z), axis = -1)` on the channel axis; the width
`d1 + d2 + d3` instantiates to `mel_dim * 2 + text_dim` in the input fuser. -/
def concat3 {b n d1 d2 d3 : Nat} (x : T3 b n d1) (y : T3 b n d2) (z : T3 b n d3) :
    T3 b n (d1 + d2 + d3) :=
  fun i j c =>
    if h1 : c.val < d1 then x i j ⟨c.val, h1⟩
    else if h2 : c.val < d1 + d2 then y i j ⟨c.val - d1, by omega⟩
    else z i j ⟨c.val - (d1 + d2), by have := c.isLt; omega⟩

/-- `mx.concatenate((x, y), axis = -1)` on the channel axis; the width
`d + d` instantiates to `dim * 2` in the long skip connection. -/
def concat2 {b n d1 d2 : Nat} (x : T3 b n d1) (y : T3 b n d2) :
    T3 b n (d1 + d2) :=
  fun i j c =>
    if h1 : c.val < d1 then x i j ⟨c.val, h1⟩
    else y i j ⟨c.val - d1, by have := c.isLt; omega⟩

/-- Row lookup in an `mlx.nn.Embedding` table with `V + 1` rows, applied to
one (integer) token id. An in-range id selects its row; MLX leaves an
out-of-range gather unchecked (no defined value), modelled here as the zero
row — no claim depends on the out-of-range value. -/
def embedLookup {V textDim : Nat} (table : Fin (V + 1) → Fin textDim → ℚ)
    (id : Int) : Fin textDim → ℚ :=
  if h : 0 ≤ id ∧ id < (V : Int) + 1 then
    table ⟨id.toNat, by omega⟩
  else fun _ => 0

/-- Lines 52 to 59 of `TextEmbedding.__call__`: record `text_len = nt`, shift
every id by `+1` (`text = text + 1`), truncate the token axis to `seq_len`
(`text[:, :seq_len]`), then `mx.pad(text, [(0, 0), (0, seq_len - text_len)],
constant_values = 0)`. The pad width uses the PRE-truncation length, so for
`nt > n` it is negative and `mx.pad` raises — hence the Option. On success
every position `j < nt` holds the shifted id and every later position holds
the filler id `0`. -/
def shiftTruncatePad {b : Nat} (n nt : Nat) (text : Fin b → Fin nt → Int) :
    Option (Fin b → Fin n → Int) :=
  if (n : Int) - (nt : Int) < 0 then none
  else some fun i j => if h : j.val < nt then text i ⟨j.val, h⟩ + 1 else 0

/-- `TextEmbedding` (dit.py lines 31 to 79). The embedding table has
`text_num_embeds + 1` rows, row 0 being the filler token. The optional extra
modelling path (entered when `conv_layers > 0`) adds a token-independent
sinusoidal positional bias and then applies the ConvNeXtV2 block stack; both
of those live outside `src/` and are modelled from the spec. -/
structure TextEmbedding (b n textDim V : Nat) where
  /-- `nn.Embedding(text_num_embeds + 1, text_dim)`: `V + 1` rows. -/
  table : Fin (V + 1) → Fin textDim → ℚ
  /-- Whether `conv_layers > 0` at construction. -/
  extraModeling : Bool
  /-- Modelled from the spec: `self._freqs_cis[pos_idx]` with
  `batch_start = 0` for every batch element — a token-independent
  `(b, n, text_dim)` positional bias; `precompute_freqs_cis` and
  `get_pos_embed_indices` are external collaborators outside `src/`. -/
  posEmbed : T3 b n textDim
  /-- Modelled from the spec: the ConvNeXtV2 text block stack, an external
  shape-preserving map outside `src/`. -/
  textBlocks : T3 b n textDim → T3 b n textDim

/-- `TextEmbedding.__call__`: shift, truncate and pad the token ids; if
`drop_text` then replace the padded tensor with zeros before lookup; embed;
optionally add the positional bias and apply the text blocks. -/
def TextEmbedding.call {b n textDim V nt : Nat} (m : TextEmbedding b n textDim V)
    (text : Fin b → Fin nt → Int) (dropText : Bool) : Option (T3 b n textDim) :=
  match shiftTruncatePad n nt text with
  | none => none
  | some padded =>
    let tokens : Fin b → Fin n → Int := if dropText then fun _ _ => 0 else padded
    let embedded : T3 b n textDim := fun i j => embedLookup m.table (tokens i j)
    some (if m.extraModeling then
            m.textBlocks (fun i j k => embedded i j k + m.posEmbed i j k)
          else embedded)

example : shiftTruncatePad 2 3 (fun (_ : Fin 1) (j : Fin 3) => (j.val : Int)) = none := by
  decide

example :
    shiftTruncatePad 2 1 (fun (_ : Fin 1) (_ : Fin 1) => (2 : Int)) =
      some (fun _ j => if _h : j.val < 1 then (2 : Int) + 1 else 0) := by
  decide

/-- `InputEmbedding` (dit.py lines 85 to 103): a linear projection
`nn.Linear(mel_dim * 2 + text_dim, out_dim)` over the channel concatenation
of noised audio, conditioning audio and text embedding, followed by a
residual convolutional positional bias. The input width is written
`melDim + melDim + textDim`, definitionally the `mel_dim * 2 + text_dim` of
the source. -/
structure InputEmbedding (b n melDim textDim d : Nat) where
  /-- Weight of `self.proj = nn.Linear(mel_dim * 2 + text_dim, out_dim)`. -/
  projW : Fin d → Fin (melDim + melDim + textDim) → ℚ
  /-- Bias of `self.proj`. -/
  projB : Fin d → ℚ
  /-- Modelled from the spec: `ConvPositionEmbedding(dim = out_dim)`, an
  external shape-preserving map outside `src/`. -/
  convPosEmbed : T3 b n d → T3 b n d

/-- `InputEmbedding.__call__`: zero the conditioning audio when
`drop_audio_cond` is set, concatenate `(x, cond, text_embed)` on the channel
axis, project, then add the convolutional positional bias residually. -/
def InputEmbedding.call {b n melDim textDim d : Nat}
    (m : InputEmbedding b n melDim textDim d) (x cond : T3 b n melDim)
    (textEmbed : T3 b n textDim) (dropAudioCond : Bool) : T3 b n d :=
  let cond2 : T3 b n melDim := if dropAudioCond then fun _ _ _ => 0 else cond
  let fused := linearT3 m.projW m.projB (concat3 x cond2 textEmbed)
  fun i j k => m.convPosEmbed fused i j k + fused i j k

/-- `AdaLayerNormZero` (dit.py lines 110 to 126): a SiLU nonlinearity then
`nn.Linear(dim, dim * 6)` over the conditioning embedding, split into six
`(b, d)` modulation vectors. -/
structure AdaLayerNormZero (d : Nat) where
  /-- Weight of `self.linear = nn.Linear(dim, dim * 6)`. -/
  W : Fin (d * 6) → Fin d → ℚ
  /-- Bias of `self.linear`. -/
  bias : Fin (d * 6) → ℚ

/-- `AdaLayerNormZero.__call__`: project `silu(emb)` to width `6 d`, split
as `shift_msa, scale_msa, gate_msa, shift_mlp, scale_mlp, gate_mlp`, return
`norm(x) * (1 + scale_msa) + shift_msa` (modulations broadcast over the
sequence axis) together with the last four vectors. -/
def AdaLayerNormZero.call {b n d : Nat} (m : AdaLayerNormZero d)
    (sigmoid rsqrt : ℚ → ℚ) (x : T3 b n d) (emb : T2 b d) :
    T3 b n d × T2 b d × T2 b d × T2 b d × T2 b d :=
  let e := linearT2 m.W m.bias (siluT2 sigmoid emb)
  let shiftMsa := split6 e 0
  let scaleMsa := split6 e 1
  let gateMsa := split6 e 2
  let shiftMlp := split6 e 3
  let scaleMlp := split6 e 4
  let gateMlp := split6 e 5
  (fun i j k => layerNorm rsqrt (x i j) k * (1 + scaleMsa i k) + shiftMsa i k,
   gateMsa, shiftMlp, scaleMlp, gateMlp)

/-- `AdaLayerNormZero_Final` (dit.py lines 133 to 147): as the block variant
but projecting to width `2 d` and splitting as `scale, shift` only. -/
structure AdaLayerNormZeroFinal (d : Nat) where
  /-- Weight of `self.linear = nn.Linear(dim, dim * 2)`. -/
  W : Fin (d * 2) → Fin d → ℚ
  /-- Bias of `self.linear`. -/
  bias : Fin (d * 2) → ℚ

/-- `AdaLayerNormZero_Final.__call__`: split the `2 d` projection of
`silu(emb)` as `scale, shift` and return `norm(x) * (1 + scale) + shift`. -/
def AdaLayerNormZeroFinal.call {b n d : Nat} (m : AdaLayerNormZeroFinal d)
    (sigmoid rsqrt : ℚ → ℚ) (x : T3 b n d) (emb : T2 b d) : T3 b n d :=
  let e := linearT2 m.W m.bias (siluT2 sigmoid emb)
  let scale := split2 e 0
  let shift := split2 e 1
  fun i j k => layerNorm rsqrt (x i j) k * (1 + scale i k) + shift i k

/-- `DiTBlock` (dit.py lines 153 to 188). The attention and feed-forward
kernels are external collaborators outside `src/`, modelled from the spec as
pure maps; `ρ` is the type of the rotary table they consume. -/
structure DiTBlock (b n d : Nat) (ρ : Type) where
  /-- `self.attn_norm = AdaLayerNormZero(dim)`. -/
  attnNorm : AdaLayerNormZero d
  /-- Modelled from the spec: `Attention(dim, heads, dim_head, dropout)`,
  an external pure map `(x, mask, rope) ↦ (b, n, d)` outside `src/`. -/
  attn : T3 b n d → Option (Fin b → Fin n → Bool) → ρ → T3 b n d
  /-- Modelled from the spec: `FeedForward(dim, mult, dropout, tanh)`, an
  external shape-preserving map outside `src/`. -/
  ff : T3 b n d → T3 b n d

/-- `DiTBlock.__call__`: modulated pre-norm, attention gated by `gate_msa`
into the residual, then a second non-affine LayerNorm modulated by
`scale_mlp, shift_mlp`, feed-forward gated by `gate_mlp` into the residual. -/
def DiTBlock.call {b n d : Nat} {ρ : Type} (blk : DiTBlock b n d ρ)
    (sigmoid rsqrt : ℚ → ℚ) (x : T3 b n d) (t : T2 b d)
    (mask : Option (Fin b → Fin n → Bool)) (rope : ρ) : T3 b n d :=
  let r := blk.attnNorm.call sigmoid rsqrt x t
  let norm := r.1
  let gateMsa := r.2.1
  let shiftMlp := r.2.2.1
  let scaleMlp := r.2.2.2.1
  let gateMlp := r.2.2.2.2
  let attnOutput := blk.attn norm mask rope
  let x1 : T3 b n d := fun i j k => x i j k + gateMsa i k * attnOutput i j k
  let norm2 : T3 b n d := fun i j k =>
    layerNorm rsqrt (x1 i j) k * (1 + scaleMlp i k) + shiftMlp i k
  let ffOutput := blk.ff norm2
  fun i j k => x1 i j k + gateMlp i k * ffOutput i j k

/-- The `time` argument of `DiT.__call__`: either a scalar (ndim 0) or a
`(b,)` tensor. -/
inductive Timestep (b : Nat) where
  | scalar (s : ℚ)
  | vector (v : T1 b)

/-- Lines 253 to 254 of `DiT.__call__`: `if time.ndim == 0` then
`time = repeat(time, b)` — broadcast a scalar to a constant `(b,)` tensor. -/
def broadcastTime {b : Nat} : Timestep b → T1 b
  | .scalar s => fun _ => s
  | .vector v => v

/-- `DiT` (dit.py lines 194 to 275): the transformer backbone. External
collaborators outside `src/` (TimestepEmbedding, RotaryEmbedding) are
modelled from the spec as abstract maps; `ρ` is the rotary table type. -/
structure DiT (b n melDim textDim d V : Nat) (ρ : Type) where
  /-- Modelled from the spec: `TimestepEmbedding(dim)`, an external map
  `(b,) ↦ (b, dim)` outside `src/`. -/
  timeEmbed : T1 b → T2 b d
  /-- `self.text_embed = TextEmbedding(text_num_embeds, text_dim, conv_layers)`. -/
  textEmbed : TextEmbedding b n textDim V
  /-- `self.input_embed = InputEmbedding(mel_dim, text_dim, dim)`. -/
  inputEmbed : InputEmbedding b n melDim textDim d
  /-- Modelled from the spec: `RotaryEmbedding(dim_head).forward_from_seq_len`,
  an external map from a sequence length to a rotary table, outside `src/`. -/
  rotaryEmbed : Nat → ρ
  /-- `self.transformer_blocks`, one entry per `range(depth)`. -/
  transformerBlocks : List (DiTBlock b n d ρ)
  /-- `nn.Linear(dim * 2, dim, bias = False)` when `long_skip_connection`
  was requested at construction, else `None`; only the weight, no bias. -/
  longSkipConnection : Option (Fin d → Fin (d + d) → ℚ)
  /-- `self.norm_out = AdaLayerNormZero_Final(dim)`. -/
  normOut : AdaLayerNormZeroFinal d
  /-- Weight of `self.proj_out = nn.Linear(dim, mel_dim)`. -/
  projOutW : Fin melDim → Fin d → ℚ
  /-- Bias of `self.proj_out`. -/
  projOutB : Fin melDim → ℚ

/-- `DiT.__call__` (dit.py lines 242 to 275): broadcast time, embed time,
embed text (which can raise from `mx.pad`, hence the Option), fuse inputs,
compute the rotary table once, snapshot the residual for the long skip, run
the block stack, apply the optional long skip projection, the final
modulation and the output projection. -/
def DiT.call {b n melDim textDim d V nt : Nat} {ρ : Type}
    (m : DiT b n melDim textDim d V ρ) (sigmoid rsqrt : ℚ → ℚ)
    (x cond : T3 b n melDim) (text : Fin b → Fin nt → Int) (time : Timestep b)
    (dropAudioCond dropText : Bool) (mask : Option (Fin b → Fin n → Bool)) :
    Option (T3 b n melDim) :=
  let time1 := broadcastTime time
  let t := m.timeEmbed time1
  match m.textEmbed.call text dropText with
  | none => none
  | some textEmbedded =>
    let x1 := m.inputEmbed.call x cond textEmbedded dropAudioCond
    let rope := m.rotaryEmbed n
    let residual := x1
    let x2 := m.transformerBlocks.foldl
      (fun acc blk => blk.call sigmoid rsqrt acc t mask rope) x1
    let x3 := match m.longSkipConnection with
      | none => x2
      | some W => linearNoBiasT3 W (concat2 x2 residual)
    let x4 := m.normOut.call sigmoid rsqrt x3 t
    some (linearT3 m.projOutW m.projOutB x4)

/-- The structural content of `DiT.__init__` (dit.py lines 195 to 240):
which shapes and sub-components the constructor resolves from its keyword
arguments. `depth` and `heads` are Python ints, so they may be negative;
`numBlocks` records `len(self.transformer_blocks)` where the list is built
over `range(depth)` (empty for `depth <= 0`); `textDim` records the
`if text_dim is None: text_dim = mel_dim` fallback of lines 213 to 214;
`inputProjInWidth` records the `nn.Linear(mel_dim * 2 + text_dim, dim)`
input width inside `InputEmbedding`; `embedRows` records the
`nn.Embedding(text_num_embeds + 1, text_dim)` row count inside
`TextEmbedding`. The constructor body contains no validation and no raise
statement, so the model is a total function. -/
structure DiTInitShape where
  dim : Nat
  melDim : Nat
  textDim : Nat
  depth : Int
  numBlocks : Nat
  heads : Int
  inputProjInWidth : Nat
  embedRows : Nat
  longSkip : Bool

/-- `DiT.__init__` at the shape level; see `DiTInitShape`. -/
def DiT.initShape (dim : Nat) (depth heads : Int) (melDim textNumEmbeds : Nat)
    (textDim : Option Nat) (_convLayers : Nat) (longSkipConnection : Bool) :
    DiTInitShape :=
  let td := match textDim with
    | none => melDim
    | some v => v
  { dim := dim
    melDim := melDim
    textDim := td
    depth := depth
    numBlocks := depth.toNat
    heads := heads
    inputProjInWidth := melDim * 2 + td
    embedRows := textNumEmbeds + 1
    longSkip := longSkipConnection }

/-- The section 4.3 contract of the spec, stated in its own words: apply a
nonlinearity to `emb`, project to width `6 d`, split evenly into six `(b, d)`
vectors in the order `shift_msa, scale_msa, gate_msa, shift_mlp, scale_mlp,
gate_mlp`; return `modulated_x = norm(x) * (1 + scale_msa) + shift_msa` with
both modulation vectors broadcast over the sequence axis, together with the
remaining four vectors unchanged. -/
def adaLNZeroContract {b n d : Nat} (m : AdaLayerNormZero d)
    (sigmoid rsqrt : ℚ → ℚ) (x : T3 b n d) (emb : T2 b d) :
    T3 b n d × T2 b d × T2 b d × T2 b d × T2 b d :=
  let proj := linearT2 m.W m.bias (siluT2 sigmoid emb)
  let shiftMsa := split6 proj 0
  let scaleMsa := split6 proj 1
  let gateMsa := split6 proj 2
  let shiftMlp := split6 proj 3
  let scaleMlp := split6 proj 4
  let gateMlp := split6 proj 5
  (fun i j k => layerNorm rsqrt (x i j) k * (1 + scaleMsa i k) + shiftMsa i k,
   gateMsa, shiftMlp, scaleMlp, gateMlp)

/-- Steps 6 to 10 of the section 4.6 pipeline as the spec words them, for a
configured long skip: `residual` is snapshotted immediately after input
fusion and before the block loop; after the loop the state becomes
`Linear(concat(x, residual))` with the concatenation on the channel axis and
a bias-free `2 d → d` projection; then final modulation and the output
projection. -/
def backboneSkipContract {b n melDim textDim d V : Nat} {ρ : Type}
    (m : DiT b n melDim textDim d V ρ) (W : Fin d → Fin (d + d) → ℚ)
    (sigmoid rsqrt : ℚ → ℚ) (x cond : T3 b n melDim)
    (textEmbedded : T3 b n textDim) (time : Timestep b) (dropAudioCond : Bool)
    (mask : Option (Fin b → Fin n → Bool)) : T3 b n melDim :=
  let t := m.timeEmbed (broadcastTime time)
  let fused := m.inputEmbed.call x cond textEmbedded dropAudioCond
  let residual := fused
  let afterBlocks := m.transformerBlocks.foldl
    (fun acc blk => blk.call sigmoid rsqrt acc t mask (m.rotaryEmbed n)) fused
  let skipped := linearNoBiasT3 W (concat2 afterBlocks residual)
  linearT3 m.projOutW m.projOutB (m.normOut.call sigmoid rsqrt skipped t)

/-- The section 4.6 pipeline as the spec words it when no long skip is
configured: no snapshot and no projection around the block loop. -/
def backboneNoSkipContract {b n melDim textDim d V : Nat} {ρ : Type}
    (m : DiT b n melDim textDim d V ρ) (sigmoid rsqrt : ℚ → ℚ)
    (x cond : T3 b n melDim) (textEmbedded : T3 b n textDim)
    (time : Timestep b) (dropAudioCond : Bool)
    (mask : Option (Fin b → Fin n → Bool)) : T3 b n melDim :=
  let t := m.timeEmbed (broadcastTime time)
  let fused := m.inputEmbed.call x cond textEmbedded dropAudioCond
  let afterBlocks := m.transformerBlocks.foldl
    (fun acc blk => blk.call sigmoid rsqrt acc t mask (m.rotaryEmbed n)) fused
  linearT3 m.projOutW m.projOutB (m.normOut.call sigmoid rsqrt afterBlocks t)

/-- A concrete text encoder: batch 1, target length 2, text dimension 1,
vocabulary size 3 (so 4 embedding rows), no extra modelling. -/
def teProbe : TextEmbedding 1 2 1 3 :=
  { table := fun _ _ => 0
    extraModeling := false
    posEmbed := fun _ _ _ => 0
    textBlocks := fun v => v }

/-- A concrete zero-initialized block modulation projection at `d = 1`. -/
def zeroAdaLNBlock : AdaLayerNormZero 1 :=
  { W := fun _ _ => 0
    bias := fun _ => 0 }

/-- A concrete zero-initialized final modulation projection at `d = 1`. -/
def zeroAdaLNFinal : AdaLayerNormZeroFinal 1 :=
  { W := fun _ _ => 0
    bias := fun _ => 0 }

/-- A concrete transformer block whose modulation projection is zero and
whose external attention and feed-forward kernels are identities. -/
def probeBlock : DiTBlock 1 1 1 Unit :=
  { attnNorm := zeroAdaLNBlock
    attn := fun v _ _ => v
    ff := fun v => v }

/-- A concrete noised-audio probe tensor. -/
def probeX : T3 1 1 1 := fun _ _ _ => 2

/-- A concrete conditioning-embedding probe tensor. -/
def probeT : T2 1 1 := fun _ _ => 3

/-- A concrete backbone: batch 1, one audio frame, mel and text and model
dimension 1, vocabulary size 1, one block, no long skip. -/
def probeDiT : DiT 1 1 1 1 1 1 Unit :=
  { timeEmbed := fun _ _ _ => 0
    textEmbed :=
      { table := fun _ _ => 0
        extraModeling := false
        posEmbed := fun _ _ _ => 0
        textBlocks := fun v => v }
    inputEmbed :=
      { projW := fun _ _ => 0
        projB := fun _ => 0
        convPosEmbed := fun v => v }
    rotaryEmbed := fun _ => ()
    transformerBlocks := [probeBlock]
    longSkipConnection := none
    normOut := zeroAdaLNFinal
    projOutW := fun _ _ => 0
    projOutB := fun _ => 0 }

/-- A concrete bias-free long-skip weight at `d = 1`. -/
def probeSkipW : Fin 1 → Fin (1 + 1) → ℚ := fun _ _ => 1

/-- The backbone `probeDiT` with the long skip connection configured. -/
def probeDiTSkip : DiT 1 1 1 1 1 1 Unit :=
  { probeDiT with longSkipConnection := some probeSkipW }

/-- A concrete token batch: batch 1, one token with id 0. -/
def probeTok : Fin 1 → Fin 1 → Int := fun _ _ => 0

/-- The padded, shifted token tensor produced by `shiftTruncatePad 2 1` on a
constant token batch with id 2. -/
def probePadded : Fin 1 → Fin 2 → Int :=
  fun _ j => if _h : j.val < 1 then (2 : Int) + 1 else 0

/-- A concrete embedding table with 4 rows. -/
def probeTable : Fin 4 → Fin 1 → ℚ := fun _ _ => 0

/-- The text embedding the concrete backbone computes on `probeTok`. -/
def probeTe : T3 1 1 1 := fun i j k =>
  embedLookup probeDiT.textEmbed.table
    (if h : j.val < 1 then probeTok i ⟨j.val, h⟩ + 1 else 0) k

/-- A linear layer with zero weight and zero bias sends every input to the
zero tensor. -/
theorem linearT2_zero {b inD outD : Nat} (W : Fin outD → Fin inD → ℚ)
    (bias : Fin outD → ℚ) (hW : ∀ r c, W r c = 0) (hB : ∀ r, bias r = 0)
    (x : T2 b inD) : linearT2 W bias x = fun _ _ => 0 := by
  funext i r
  simp [linearT2, hW, hB]

/-- An in-range id makes `embedLookup` select an actual table row. -/
theorem embedLookup_in_range {V td : Nat} (table : Fin (V + 1) → Fin td → ℚ)
    (id : Int) (h0 : 0 ≤ id) (h1 : id < (V : Int) + 1) :
    ∃ r : Fin (V + 1), (r.val : Int) = id ∧ embedLookup table id = table r := by
  refine ⟨⟨id.toNat, by omega⟩, Int.toNat_of_nonneg h0, ?_⟩
  unfold embedLookup
  rw [dif_pos ⟨h0, h1⟩]

/-- C1: the spec claims the text length reconciliation (shift by +1,
truncate to n, right-pad with filler 0) never raises for any nt ≥ 0. The
code records `text_len` BEFORE truncating and then calls `mx.pad` with size
`seq_len - text_len`, which is negative whenever nt > n; MLX rejects
negative padding sizes, so the call raises instead of truncating. Evaluating
the text encoder at n = 2, nt = 3 (token ids 0, 1, 2) exhibits the failure:
the call yields an error (`none`) rather than a length-2 embedding. -/
theorem textEmbedding_raises_when_text_longer :
    teProbe.call (fun (_ : Fin 1) (j : Fin 3) => (j.val : Int)) false = none := by
  decide

/-- C2: if the block modulation projection (width 6 d) and the final
modulation projection (width 2 d) have all-zero weights and biases, then for
every input, every sigmoid and reciprocal square root kernel, every external
attention and feed-forward kernel, every mask and every rotary table, the
transformer block is the identity on its input (both gates are zero and
gates multiply only the branch outputs added to the residual), and the final
modulation returns exactly the non-affine norm of its input. -/
theorem zero_modulation_identity {b n d : Nat} {ρ : Type}
    (blk : DiTBlock b n d ρ) (fnorm : AdaLayerNormZeroFinal d)
    (hW : ∀ r c, blk.attnNorm.W r c = 0) (hB : ∀ r, blk.attnNorm.bias r = 0)
    (hWf : ∀ r c, fnorm.W r c = 0) (hBf : ∀ r, fnorm.bias r = 0) :
    (∀ (sigmoid rsqrt : ℚ → ℚ) (x : T3 b n d) (t : T2 b d)
        (mask : Option (Fin b → Fin n → Bool)) (rope : ρ),
      blk.call sigmoid rsqrt x t mask rope = x) ∧
    (∀ (sigmoid rsqrt : ℚ → ℚ) (x : T3 b n d) (t : T2 b d),
      fnorm.call sigmoid rsqrt x t = fun i j k => layerNorm rsqrt (x i j) k) := by
  constructor
  · intro sigmoid rsqrt x t mask rope
    have he : linearT2 blk.attnNorm.W blk.attnNorm.bias (siluT2 sigmoid t) =
        fun _ _ => 0 := linearT2_zero _ _ hW hB _
    funext i j k
    simp [DiTBlock.call, AdaLayerNormZero.call, he, split6]
  · intro sigmoid rsqrt x t
    have he : linearT2 fnorm.W fnorm.bias (siluT2 sigmoid t) =
        fun _ _ => 0 := linearT2_zero _ _ hWf hBf _
    funext i j k
    simp [AdaLayerNormZeroFinal.call, he, split2]

/-- Witness for C2: the concrete zero-initialized block at `d = 1` passes a
concrete input through unchanged. -/
theorem zero_modulation_identity_witness :
    probeBlock.call id id probeX probeT none () = probeX :=
  (zero_modulation_identity probeBlock zeroAdaLNFinal
    (fun _ _ => rfl) (fun _ => rfl) (fun _ _ => rfl) (fun _ => rfl)).1
    id id probeX probeT none ()

/-- C3: for every input, the backbone called with `drop_audio_cond = True`
returns exactly what it returns with `cond` replaced by an all-zero tensor
and `drop_audio_cond = False`; and called with `drop_text = True` it returns
exactly what it returns on a token batch whose padded, shifted tensor is
all-zero (every raw id is the filler -1, which the +1 shift sends to 0, as
does the padding) with `drop_text = False`. -/
theorem cfg_dropout_determinism {b n melDim textDim d V nt : Nat} {ρ : Type}
    (m : DiT b n melDim textDim d V ρ) (sigmoid rsqrt : ℚ → ℚ)
    (x cond : T3 b n melDim) (text : Fin b → Fin nt → Int) (time : Timestep b)
    (dropAudioCond dropText : Bool) (mask : Option (Fin b → Fin n → Bool)) :
    (DiT.call m sigmoid rsqrt x cond text time true dropText mask =
       DiT.call m sigmoid rsqrt x (fun _ _ _ => 0) text time false dropText mask) ∧
    (DiT.call m sigmoid rsqrt x cond text time dropAudioCond true mask =
       DiT.call m sigmoid rsqrt x cond (fun (_ : Fin b) (_ : Fin nt) => (-1 : Int))
         time dropAudioCond false mask) := by
  constructor
  · have hinput : ∀ te : T3 b n textDim,
        m.inputEmbed.call x cond te true =
          m.inputEmbed.call x (fun _ _ _ => 0) te false := by
      intro te
      simp [InputEmbedding.call]
    unfold DiT.call
    cases hcall : m.textEmbed.call text dropText with
    | none => rfl
    | some te => simp only [hinput]
  · have htext : m.textEmbed.call text true =
        m.textEmbed.call (fun (_ : Fin b) (_ : Fin nt) => (-1 : Int)) false := by
      unfold TextEmbedding.call shiftTruncatePad
      by_cases hg : (n : Int) - (nt : Int) < 0
      · simp [hg]
      · have hz : (fun (i : Fin b) (j : Fin n) =>
            if h : j.val < nt then
              (fun (_ : Fin b) (_ : Fin nt) => (-1 : Int)) i ⟨j.val, h⟩ + 1
            else 0) = fun _ _ => (0 : Int) := by
          funext i j
          by_cases hj : j.val < nt <;> simp [hj]
        simp [hg, hz]
    unfold DiT.call
    rw [htext]

/-- C4 counterexample: at nt = 2 > n = 1 the concrete backbone call raises
from the text-length pad (yields an error, `none`) instead of returning a
`(b, n, mel_dim)` tensor, refuting the claim for unrestricted nt. -/
theorem backbone_shape_claim_fails_for_long_text :
    probeDiT.call id id (fun _ _ _ => 0) (fun _ _ _ => 0)
      (fun (_ : Fin 1) (_ : Fin 2) => (0 : Int)) (.scalar 0) false false none =
      none := by
  decide

/-- C4 (amended): for every valid dimension tuple with nt ≤ n, the backbone
call returns a tensor, and by the indexed tensor types of the model that
tensor has shape exactly `(b, n, mel_dim)`. -/
theorem backbone_output_shape {b n melDim textDim d V nt : Nat} {ρ : Type}
    (m : DiT b n melDim textDim d V ρ) (sigmoid rsqrt : ℚ → ℚ)
    (x cond : T3 b n melDim) (text : Fin b → Fin nt → Int) (time : Timestep b)
    (dropAudioCond dropText : Bool) (mask : Option (Fin b → Fin n → Bool))
    (h : nt ≤ n) :
    ∃ y : T3 b n melDim,
      DiT.call m sigmoid rsqrt x cond text time dropAudioCond dropText mask =
        some y := by
  have hg : ¬ ((n : Int) - (nt : Int) < 0) := by omega
  unfold DiT.call TextEmbedding.call shiftTruncatePad
  simp only [hg, if_false]
  exact ⟨_, rfl⟩

/-- Witness for C4 at nt = n = 1 on the concrete backbone. -/
theorem backbone_output_shape_witness :
    ∃ y : T3 1 1 1,
      probeDiT.call id id (fun _ _ _ => 0) (fun _ _ _ => 0) probeTok
        (.scalar 0) false false none = some y :=
  backbone_output_shape probeDiT id id _ _ probeTok _ _ _ _ (by decide)

/-- C5 counterexample: constructing the backbone with depth = 0 and
heads = 0 does not fail — it returns this configuration, with an empty block
stack; no ConfigurationError (or any validation) exists in the code. -/
theorem construction_succeeds_on_nonpositive_depth_heads :
    DiT.initShape 8 0 0 100 256 none 0 false =
      { dim := 8, melDim := 100, textDim := 100, depth := 0, numBlocks := 0,
        heads := 0, inputProjInWidth := 300, embedRows := 257,
        longSkip := false } := by
  rfl

/-- C5 (amended): the constructor performs no validation at all: it is total
in its arguments, and a non-positive depth silently yields an empty
transformer block list (the `range(depth)` semantics) rather than an
error. -/
theorem constructor_no_validation (dim : Nat) (depth heads : Int)
    (melDim textNumEmbeds : Nat) (textDim : Option Nat) (convLayers : Nat)
    (ls : Bool) (h : depth ≤ 0) :
    (DiT.initShape dim depth heads melDim textNumEmbeds textDim convLayers
      ls).numBlocks = 0 := by
  simp only [DiT.initShape]
  omega

/-- Witness for C5 at depth = -1. -/
theorem constructor_no_validation_witness :
    (DiT.initShape 8 (-1) 8 100 256 none 0 false).numBlocks = 0 :=
  constructor_no_validation 8 (-1) 8 100 256 none 0 false (by decide)

/-- C6: calling the backbone with a scalar timestep s equals calling it with
a `(b,)` timestep tensor whose every entry is s, all other inputs fixed. -/
theorem scalar_time_broadcast {b n melDim textDim d V nt : Nat} {ρ : Type}
    (m : DiT b n melDim textDim d V ρ) (sigmoid rsqrt : ℚ → ℚ)
    (x cond : T3 b n melDim) (text : Fin b → Fin nt → Int) (s : ℚ)
    (dropAudioCond dropText : Bool) (mask : Option (Fin b → Fin n → Bool)) :
    DiT.call m sigmoid rsqrt x cond text (.scalar s) dropAudioCond dropText
        mask =
      DiT.call m sigmoid rsqrt x cond text (.vector fun _ => s) dropAudioCond
        dropText mask := rfl

/-- C7: the block AdaLN-Zero computes exactly the section 4.3 contract —
nonlinearity on `emb`, projection to width `6 d`, even six-way split in the
order shift, scale, gate for attention then shift, scale, gate for the MLP,
`modulated_x = norm(x) * (1 + scale_msa) + shift_msa` broadcast over the
sequence axis, and the remaining four vectors returned unchanged — and the
normalization used is zero-centered: for every kernel and every row its
outputs sum to zero (and it carries no affine parameters). -/
theorem adaLN_zero_block_contract {b n d : Nat} (m : AdaLayerNormZero d)
    (sigmoid rsqrt : ℚ → ℚ) (x : T3 b n d) (emb : T2 b d) :
    m.call sigmoid rsqrt x emb = adaLNZeroContract m sigmoid rsqrt x emb ∧
    (∀ (dd : Nat) (v : Fin dd → ℚ), ∑ k, layerNorm rsqrt v k = 0) := by
  refine ⟨rfl, ?_⟩
  intro dd v
  simp only [layerNorm]
  have hsum : (∑ k : Fin dd, (v k - (∑ j : Fin dd, v j) / (dd : ℚ))) = 0 := by
    rw [Finset.sum_sub_distrib, Finset.sum_const, Finset.card_univ,
      Fintype.card_fin, nsmul_eq_mul]
    rcases Nat.eq_zero_or_pos dd with h0 | hpos
    · subst h0
      simp
    · have hdd : (dd : ℚ) ≠ 0 := Nat.cast_ne_zero.mpr (Nat.pos_iff_ne_zero.mp hpos)
      field_simp
  rw [← Finset.sum_mul, hsum, zero_mul]

/-- C8: when the long skip connection is configured, the backbone call
equals the section 4.6 pipeline that snapshots the residual immediately
after input fusion and, after the block loop, applies the bias-free
`2 d → d` projection to the channel concatenation of the loop output with
that residual; when it is not configured, the call equals the pipeline with
no snapshot and no projection. -/
theorem backbone_long_skip {b n melDim textDim d V nt : Nat} {ρ : Type}
    (m : DiT b n melDim textDim d V ρ) (sigmoid rsqrt : ℚ → ℚ)
    (x cond : T3 b n melDim) (text : Fin b → Fin nt → Int) (time : Timestep b)
    (dropAudioCond dropText : Bool) (mask : Option (Fin b → Fin n → Bool))
    (textEmbedded : T3 b n textDim)
    (hte : m.textEmbed.call text dropText = some textEmbedded) :
    (∀ W, m.longSkipConnection = some W →
      DiT.call m sigmoid rsqrt x cond text time dropAudioCond dropText mask =
        some (backboneSkipContract m W sigmoid rsqrt x cond textEmbedded time
          dropAudioCond mask)) ∧
    (m.longSkipConnection = none →
      DiT.call m sigmoid rsqrt x cond text time dropAudioCond dropText mask =
        some (backboneNoSkipContract m sigmoid rsqrt x cond textEmbedded time
          dropAudioCond mask)) := by
  constructor
  · intro W hW
    unfold DiT.call
    rw [hte, hW]
    rfl
  · intro hW
    unfold DiT.call
    rw [hte, hW]
    rfl

/-- Witness for C8 on the concrete backbone with the long skip configured. -/
theorem backbone_long_skip_witness :
    probeDiTSkip.call id id (fun _ _ _ => 0) (fun _ _ _ => 0) probeTok
        (.scalar 0) false false none =
      some (backboneSkipContract probeDiTSkip probeSkipW id id
        (fun _ _ _ => 0) (fun _ _ _ => 0) probeTe (.scalar 0) false
        none) :=
  (backbone_long_skip probeDiTSkip id id (fun _ _ _ => 0) (fun _ _ _ => 0)
    probeTok (.scalar 0) false false none probeTe rfl).1
    probeSkipW rfl

/-- C9: constructing the backbone with text_dim unset succeeds and defaults
the text dimension to mel_dim, so the input fusion projection takes width
`2 * mel_dim + mel_dim`. -/
theorem text_dim_defaults_to_mel_dim (dim : Nat) (depth heads : Int)
    (melDim textNumEmbeds convLayers : Nat) (ls : Bool) :
    (DiT.initShape dim depth heads melDim textNumEmbeds none convLayers
        ls).textDim = melDim ∧
    (DiT.initShape dim depth heads melDim textNumEmbeds none convLayers
        ls).inputProjInWidth = 2 * melDim + melDim := by
  refine ⟨rfl, ?_⟩
  show melDim * 2 + melDim = 2 * melDim + melDim
  ring

/-- C10: when the shift-truncate-pad stage succeeds and every raw token id
lies in `[-1, text_num_embeds - 1]`, every resulting id indexes an actual
row of the `text_num_embeds + 1`-row embedding table (the lookup never
falls out of range); moreover the stage applies no guard: a kept position
carries exactly the raw id plus one, whatever the raw id is, and a padded
position carries the filler id 0 (row 0 of the table). -/
theorem token_shift_in_table {b td : Nat} (N n nt : Nat)
    (text : Fin b → Fin nt → Int) (padded : Fin b → Fin n → Int)
    (table : Fin (N + 1) → Fin td → ℚ)
    (hpad : shiftTruncatePad n nt text = some padded)
    (hrange : ∀ i j, -1 ≤ text i j ∧ text i j ≤ (N : Int) - 1) :
    (∀ i j, ∃ r : Fin (N + 1), (r.val : Int) = padded i j ∧
        embedLookup table (padded i j) = table r) ∧
    (∀ (i : Fin b) (j : Fin n) (hj : j.val < nt),
        padded i j = text i ⟨j.val, hj⟩ + 1) ∧
    (∀ (i : Fin b) (j : Fin n), nt ≤ j.val → padded i j = 0) := by
  unfold shiftTruncatePad at hpad
  by_cases hg : (n : Int) - (nt : Int) < 0
  · rw [if_pos hg] at hpad
    exact absurd hpad (by simp)
  · rw [if_neg hg] at hpad
    injection hpad with hpad
    subst hpad
    refine ⟨?_, ?_, ?_⟩
    · intro i j
      by_cases hj : j.val < nt
      · simp only [dif_pos hj]
        have h1 := (hrange i ⟨j.val, hj⟩).1
        have h2 := (hrange i ⟨j.val, hj⟩).2
        exact embedLookup_in_range table _ (by omega) (by omega)
      · simp only [dif_neg hj]
        exact embedLookup_in_range table 0 (by omega) (by omega)
    · intro i j hj
      simp only [dif_pos hj]
    · intro i j hj
      simp only [dif_neg (by omega : ¬ j.val < nt)]

/-- Witness for C10 at vocabulary size 3 on a shifted-and-padded constant
token batch with id 2. -/
theorem token_shift_in_table_witness :
    (∀ (i : Fin 1) (j : Fin 2), ∃ r : Fin 4, (r.val : Int) = probePadded i j ∧
        embedLookup probeTable (probePadded i j) = probeTable r) ∧
    (∀ (i : Fin 1) (j : Fin 2) (_hj : j.val < 1),
        probePadded i j = 2 + 1) ∧
    (∀ (i : Fin 1) (j : Fin 2), 1 ≤ j.val → probePadded i j = 0) :=
  token_shift_in_table 3 2 1 (fun _ _ => 2) probePadded probeTable
    (by decide) (by decide)

end F5
